import Mathlib

/-!
Shallow embedding of `src/Source/extension/index.activateDecorations.ts`
(the SARIF "Analysis Steps" decoration engine of the extension) together
with the theorems that settle the specification claims about it.

The repository ships only `index.activateDecorations.ts`; the helpers it
imports (`findResult`, `parseArtifactLocation`, `getOriginalDoc`,
`driftedRegionToSelection`, the `diff` library) are external to `src/` and
are modelled from the specification where a claim needs them.  Every such
definition carries a doc comment starting with `Modelled from the spec:`.
All other definitions are transcribed from the TypeScript source.
-/

namespace SarifDecor

/-- A position in a text document, as in the VS Code API: a zero-based
line and a zero-based character column. -/
structure Position where
  line : Nat
  character : Nat
  deriving DecidableEq, Repr

/-- A range between two positions, as in the VS Code API (`new Range(a, b)`).
The VS Code field `end` is a Lean keyword, so it is called `stop` here. -/
structure Range where
  start : Position
  stop : Position
  deriving DecidableEq, Repr

instance : Inhabited Position := ⟨⟨0, 0⟩⟩

instance : Inhabited Range := ⟨⟨default, default⟩⟩

/-- A text document: its lines plus its URI (`editor.document`). -/
structure TextDocument where
  uri : String
  lines : List String
  deriving DecidableEq, Repr

/-- `doc.lineAt(n).text` — the text of line `n`. -/
def TextDocument.lineTextAt (doc : TextDocument) (n : Nat) : String :=
  doc.lines.getD n ""

/-- A SARIF region of a physical location.  `driftedRegionToSelection`
converts it to a current-document `Range`; in this embedding a region
already carries the positions of that range (the line/column payload of
the SARIF record). -/
structure Region where
  start : Position
  stop : Position
  deriving DecidableEq, Repr

/-- The verbatim use of a baseline region as a current-document range. -/
def regionToRange (reg : Region) : Range :=
  ⟨reg.start, reg.stop⟩

/-- One entry of `codeFlows[0].threadFlows[0].locations`.  The field
`artifactUri` is the first component of
`parseArtifactLocation(result, tfl.location?.physicalLocation?.artifactLocation)`
(that helper lives outside `src/`; per the spec it resolves an artifact
URI from the location payload, or fails).  `messageText` is
`tfl.location?.message?.text` and `region` is
`tfl.location?.physicalLocation?.region`. -/
structure ThreadFlowLocation where
  artifactUri : Option String
  region : Option Region
  messageText : Option String
  deriving DecidableEq, Repr

/-- A thread flow: its `locations` array. -/
structure ThreadFlow where
  locations : List ThreadFlowLocation
  deriving DecidableEq, Repr

/-- A code flow: its `threadFlows` array (optional in SARIF). -/
structure CodeFlow where
  threadFlows : Option (List ThreadFlow)
  deriving DecidableEq, Repr

/-- A SARIF result.  `_id` is the opaque, comparable result identity
(the source stores `JSON.stringify(result._id)`; here the identity is
kept as the comparable string it stringifies to). -/
structure SarifResult where
  _id : String
  codeFlows : Option (List CodeFlow)
  deriving DecidableEq, Repr

/-- `result.codeFlows?.[0]?.threadFlows?.[0]?.locations ?? []` — the
ordered location list of the result, with every optional-chaining step
defaulting to the empty list. -/
def threadFlowLocations (result : SarifResult) : List ThreadFlowLocation :=
  match result.codeFlows with
  | none => []
  | some cfs =>
    match cfs.head? with
    | none => []
    | some cf =>
      match cf.threadFlows with
      | none => []
      | some tfs =>
        match tfs.head? with
        | none => []
        | some tf => tf.locations

/-- Modelled from the spec: a log holds analysis results (`store.logs` is
the observable collection the pinned identity is re-resolved against). -/
structure Log where
  results : List SarifResult
  deriving DecidableEq, Repr

/-- Modelled from the spec: `findResult(store.logs, resultId)` (from
`../shared`, outside `src/`) re-resolves a pinned identity to a live
result, returning nothing when the identity no longer resolves. -/
def findResult (logs : List Log) (resultId : String) : Option SarifResult :=
  (logs.flatMap Log.results).find? (fun r => r._id == resultId)

/-! ## The active-selection state machine (`provideCodeActions`)

The process-wide state is `activeResultId : observable.box<string | undefined>`,
i.e. an `Option String`.  Every selection event is delivered through
`provideCodeActions(_doc, _range, context)`; the handler's only effect on
the state is the `activeResultId.set(...)` call, so the handler is
embedded as a state-transition function. -/

/-- A `ResultDiagnostic`: a VS Code diagnostic that may carry the
originating SARIF result (`diagnostic?.result` may be `undefined`). -/
structure ResultDiagnostic where
  result : Option SarifResult
  deriving DecidableEq, Repr

/-- The `CodeActionContext` fields the handler reads: whether `context.only`
is set (truthy), and `context.diagnostics`. -/
structure CodeActionContext where
  only : Bool
  diagnostics : List ResultDiagnostic
  deriving DecidableEq, Repr

/-- The result identity a selection event carries: the `result` of the
first diagnostic, when there is one. -/
def contextResult (ctx : CodeActionContext) : Option SarifResult :=
  ctx.diagnostics.head?.bind ResultDiagnostic.result

/-- The state transition of `provideCodeActions` on `activeResultId`:
`if (context.only) return; if (!diagnostic) return; if (!result) return;
activeResultId.set(JSON.stringify(result._id))`.  Every early return
leaves the box untouched. -/
def provideCodeActionsStep (s : Option String) (ctx : CodeActionContext) :
    Option String :=
  if ctx.only then s
  else
    match ctx.diagnostics.head? with
    | none => s
    | some diagnostic =>
      match diagnostic.result with
      | none => s
      | some result => some result._id

/-! ## The per-editor location filter (`locationsInDoc`)

The source computes

```
const locationsInDoc = locations.filter(async (tfl) => {
  const [artifactUriString] = parseArtifactLocation(result, ...);
  return (await baser.translateLocalToArtifact(currentDoc.uri)) === artifactUriString;
});
```

`Array.prototype.filter` is synchronous: the `async` callback returns a
`Promise` object, and a `Promise` is always truthy, so the filter keeps
every element — the artifact comparison inside the callback never
influences the outcome.  The embedding keeps the callback's body (the
strict-equality comparison) and wraps it in a promise whose truthiness
is what the filter actually tests. -/

/-- A JavaScript `Promise` holding an eventual value. -/
structure JsPromise (α : Type) where
  eventual : α
  deriving DecidableEq, Repr

/-- The truthiness of a `Promise` object: every object is truthy. -/
def JsPromise.truthy {α : Type} (_ : JsPromise α) : Bool :=
  true

/-- JavaScript strict equality between two possibly-`undefined` strings
(`undefined === undefined` is `true`). -/
def jsStrictEq (a b : Option String) : Bool :=
  a == b

/-- The filter the source actually performs: `locations.filter(async tfl => ...)`.
`translate` is `baser.translateLocalToArtifact` (the `UriRebaser`, an
external collaborator).  Because the callback is `async`, the value
tested is `JsPromise.truthy` of the comparison's promise. -/
def locationsInDoc (translate : String → Option String)
    (currentDoc : TextDocument) (locations : List ThreadFlowLocation) :
    List ThreadFlowLocation :=
  locations.filter (fun tfl =>
    JsPromise.truthy ⟨jsStrictEq (translate currentDoc.uri) tfl.artifactUri⟩)

/-- The filter the spec describes, stated from its words: keep only those
locations whose artifact resolves, and resolves to this editor's
document; a location whose artifact resolution fails is excluded. -/
def locationsInDocSpecified (translate : String → Option String)
    (currentDoc : TextDocument) (locations : List ThreadFlowLocation) :
    List ThreadFlowLocation :=
  locations.filter (fun tfl =>
    match tfl.artifactUri, translate currentDoc.uri with
    | some artifact, some docArtifact => artifact == docArtifact
    | _, _ => false)

/-! ## Diff engine and region drift projector

`diffChars` comes from the external `diff` npm package and
`driftedRegionToSelection` lives in `regionToSelection.ts`, outside
`src/`; both are modelled from the spec (§4.1, §4.2). -/

/-- One operation of an edit script: a run of characters present in both
texts, only in the current text, or only in the baseline text. -/
inductive DiffBlock where
  | equal (run : String)
  | insert (run : String)
  | delete (run : String)
  deriving DecidableEq, Repr

/-- Modelled from the spec: `diffChars(baselineText, currentText)` — a
deterministic character-level edit script whose baseline-side runs
concatenate to the baseline text and whose current-side runs concatenate
to the current text.  (The real library computes a minimal script; no
claim depends on minimality, only on the contract, which this
implementation satisfies.) -/
def diffChars (baselineText currentText : String) : List DiffBlock :=
  if baselineText == currentText then [DiffBlock.equal baselineText]
  else [DiffBlock.delete baselineText, DiffBlock.insert currentText]

/-- `doc.getText()` — the document's full text, lines joined by `\n`. -/
def TextDocument.getText (doc : TextDocument) : String :=
  String.intercalate "\n" doc.lines

/-- Character offset of a position in a document (each line contributes
its length plus one for the newline). -/
def TextDocument.offsetAt (doc : TextDocument) (p : Position) : Nat :=
  ((doc.lines.take p.line).map (fun l => l.length + 1)).sum + p.character

/-- Position of a character offset in a document. -/
def positionAtAux (lines : List String) (line : Nat) (off : Nat) : Position :=
  match lines with
  | [] => ⟨line, off⟩
  | l :: rest =>
    if off ≤ l.length then ⟨line, off⟩
    else positionAtAux rest (line + 1) (off - (l.length + 1))

/-- `doc.positionAt(offset)`. -/
def TextDocument.positionAt (doc : TextDocument) (off : Nat) : Position :=
  positionAtAux doc.lines 0 off

/-- Modelled from the spec (§4.2): map one baseline character offset
through the edit script.  Walk the script with a baseline cursor and a
current cursor; inside an `equal` run the offset maps 1:1 shifted by the
cursor difference; inside a `delete` run it has no current counterpart. -/
def projectOffset (script : List DiffBlock) (baseCur curCur off : Nat) :
    Option Nat :=
  match script with
  | [] => if off = baseCur then some curCur else none
  | DiffBlock.equal run :: rest =>
    if off < baseCur + run.length then
      if baseCur ≤ off then some (curCur + (off - baseCur)) else none
    else projectOffset rest (baseCur + run.length) (curCur + run.length) off
  | DiffBlock.insert run :: rest =>
    projectOffset rest baseCur (curCur + run.length) off
  | DiffBlock.delete run :: rest =>
    if off < baseCur + run.length then
      if baseCur ≤ off then none else none
    else projectOffset rest (baseCur + run.length) curCur off

/-- Modelled from the spec (§4.2): project a baseline offset region
`[s, e)` through the edit script, clipping to the surviving sub-span
when part of it was deleted, and failing when nothing of it survives. -/
def projectSpan (script : List DiffBlock) (s e : Nat) : Option (Nat × Nat) :=
  let survivors := ((List.range (e - s + 1)).map (fun i =>
    (projectOffset script 0 0 (s + i)).map (fun c => (s + i, c)))).reduceOption
  match survivors.head?, survivors.getLast? with
  | some (_, c1), some (_, c2) => some (c1, c2)
  | _, _ => none

/-- Modelled from the spec: `driftedRegionToSelection(diffBlocks,
currentDoc, region, originalDoc)` from `regionToSelection.ts` (outside
`src/`).  With no baseline snapshot the Projector is bypassed entirely
and the baseline region is used as-is verbatim on the current document
(degrade-to-identity, §4.2); otherwise the region is projected through
the edit script.  A missing region or a failed projection yields the
default empty range. -/
def driftedRegionToSelection (diffBlocks : List DiffBlock)
    (currentDoc : TextDocument) (region : Option Region)
    (originalDoc : Option TextDocument) : Range :=
  match region with
  | none => default
  | some reg =>
    match originalDoc with
    | none => regionToRange reg
    | some baseDoc =>
      let s := baseDoc.offsetAt reg.start
      let e := baseDoc.offsetAt reg.stop
      match projectSpan diffBlocks s e with
      | none => default
      | some (c1, c2) => ⟨currentDoc.positionAt c1, currentDoc.positionAt c2⟩

/-! ## Annotation layout (`messages`, `rangesEnd`, `rangesEndAdj`,
`maxRangeEnd`, `decorCallouts`) -/

/-- The filler glyph repeated to pad each callout. -/
def filler : Char := '┄'

/-- `Step ${locations.indexOf(tfl) + 1}${text ? `: ${text}` : ""}` — the
callout message for one location, numbered by the location's index in
the pinned result's original ordered location list.  (JavaScript
`indexOf` uses reference identity; an empty string is falsy, so an empty
message text adds no suffix.) -/
def stepMessage (locations : List ThreadFlowLocation)
    (tfl : ThreadFlowLocation) : String :=
  "Step " ++ toString (locations.indexOf tfl + 1) ++
    (match tfl.messageText with
     | some text => if text = "" then "" else ": " ++ text
     | none => "")

/-- The messages of a pass: one per filtered location, each numbered from
the original ordered list. -/
def stepMessages (locations sub : List ThreadFlowLocation) : List String :=
  sub.map (stepMessage locations)

/-- `currentDoc.lineAt(range.end.line).range.end` made into an empty
range: the end-of-line anchor of one rendered range. -/
def lineEndRange (currentDoc : TextDocument) (range : Range) : Range :=
  let endPos : Position :=
    ⟨range.stop.line, (currentDoc.lineTextAt range.stop.line).length⟩
  ⟨endPos, endPos⟩

/-- The number of tab characters in a string
(`text.match(/\t/g)?.length ?? 0`). -/
def tabCountIn (s : String) : Nat :=
  s.data.count '\t'

/-- One entry of `rangesEndAdj`: the anchor's character column plus
`tabCount * (tabSize - 1)`.  Computed over `Int` as JavaScript numbers
would be. -/
def visualEndAdj (currentDoc : TextDocument) (tabSize : Int)
    (range : Range) : Int :=
  let tabCount := tabCountIn (currentDoc.lineTextAt range.stop.line)
  (range.stop.character : Int) + (tabCount : Int) * (tabSize - 1)

/-- `Math.max(...rangesEndAdj) + 2` — the padding target column.  On an
empty list JavaScript's `Math.max()` is `-Infinity`; that value is never
consumed (the callout list is empty then), so the embedding uses `0` as
the unused placeholder for the empty case. -/
def maxRangeEnd (adj : List Int) : Int :=
  (adj.max?.getD 0) + 2

/-- The repeat count `maxRangeEnd - rangesEndAdj[i]` handed to
`"┄".repeat(...)` for the callout at index `i`. -/
def padCount (adj : List Int) (i : Nat) : Int :=
  maxRangeEnd adj - adj.getD i 0

/-- ` ${"┄".repeat(n)} ${message}` — the trailing `contentText` of one
callout.  (JavaScript `repeat` throws on a negative count; the count is
proved nonnegative, and `Int.toNat` embeds the nonnegative case.) -/
def calloutContent (n : Int) (message : String) : String :=
  " " ++ String.mk (List.replicate n.toNat filler) ++ " " ++ message

/-- One rendered callout decoration: its anchor range, hover message and
`renderOptions.after.contentText`. -/
structure Callout where
  range : Range
  hoverMessage : String
  contentText : String
  deriving DecidableEq, Repr

instance : Inhabited Callout := ⟨⟨default, "", ""⟩⟩

/-- `decorCallouts`: the callout decorations of one editor pass, built
from the rendered ranges and messages.  The source maps over `rangesEnd`
with the element index and reads `messages[i]` and `rangesEndAdj[i]` by
index; the embedding maps over the indices directly. -/
def decorCallouts (currentDoc : TextDocument) (tabSize : Int)
    (ranges : List Range) (messages : List String) : List Callout :=
  let rangesEnd := ranges.map (lineEndRange currentDoc)
  let rangesEndAdj := rangesEnd.map (visualEndAdj currentDoc tabSize)
  (List.range rangesEnd.length).map (fun i =>
    { range := rangesEnd.getD i default
      hoverMessage := (messages.getD i "")
      contentText :=
        calloutContent (padCount rangesEndAdj i) (messages.getD i "") })

/-! ## The update pass and the event handlers

`update()` walks `window.visibleTextEditors` and, per editor, calls
`editor.setDecorations(decorationTypeHighlight, ranges)` and
`editor.setDecorations(decorationTypeCallout, decorCallouts)`.  The pass
is embedded as the trace of `setDecorations` calls it issues, in order;
the two early returns issue none. -/

/-- A visible text editor: a stable identity, its document and its
`options.tabSize`. -/
structure TextEditor where
  id : Nat
  document : TextDocument
  tabSize : Int
  deriving Repr

/-- `store.analysisInfo` — carries the `commit_sha` the analysis ran
against (either field may be absent). -/
structure AnalysisInfo where
  commit_sha : Option String
  deriving DecidableEq, Repr

/-- The store: its observable `logs` collection and `analysisInfo`. -/
structure Store where
  logs : List Log
  analysisInfo : Option AnalysisInfo
  deriving DecidableEq, Repr

/-- The process-wide state an update pass reads: the `activeResultId`
box, the store, the visible editors, `baser.translateLocalToArtifact`
(the rebaser's local-URI-to-artifact-URI mapping) and the baseline
snapshot source behind `getOriginalDoc` (commit sha and URI to baseline
document). -/
structure ExtState where
  activeResultId : Option String
  store : Store
  visibleEditors : List TextEditor
  translateLocalToArtifact : String → Option String
  snapshots : String → String → Option TextDocument

/-- Modelled from the spec: `getOriginalDoc(commit_sha, currentDoc)`
(from `getOriginalDoc.ts`, outside `src/`) fetches the baseline snapshot
of the document at the given revision, or nothing when the revision or
the snapshot is unavailable. -/
def getOriginalDoc (st : ExtState) (commitSha : Option String)
    (currentDoc : TextDocument) : Option TextDocument :=
  match commitSha with
  | none => none
  | some sha => st.snapshots sha currentDoc.uri

/-- One `editor.setDecorations(type, items)` call of a pass. -/
inductive DecorationAction where
  | setHighlight (editorId : Nat) (ranges : List Range)
  | setCallout (editorId : Nat) (callouts : List Callout)
  deriving DecidableEq, Repr

/-- The highlight ranges of one editor pass: each filtered location's
region projected by `driftedRegionToSelection` over the pass's diff. -/
def renderRanges (st : ExtState) (result : SarifResult)
    (editor : TextEditor) : List Range :=
  let currentDoc := editor.document
  let locations := threadFlowLocations result
  let locsInDoc := locationsInDoc st.translateLocalToArtifact currentDoc locations
  let originalDoc := getOriginalDoc st
    (st.store.analysisInfo.bind AnalysisInfo.commit_sha) currentDoc
  let diffBlocks :=
    match originalDoc with
    | some baseDoc => diffChars baseDoc.getText currentDoc.getText
    | none => []
  locsInDoc.map (fun tfl =>
    driftedRegionToSelection diffBlocks currentDoc tfl.region originalDoc)

/-- The callout decorations of one editor pass. -/
def renderCallouts (st : ExtState) (result : SarifResult)
    (editor : TextEditor) : List Callout :=
  let currentDoc := editor.document
  let locations := threadFlowLocations result
  let locsInDoc := locationsInDoc st.translateLocalToArtifact currentDoc locations
  decorCallouts currentDoc editor.tabSize
    (renderRanges st result editor) (stepMessages locations locsInDoc)

/-- The two `setDecorations` calls one editor receives in a pass, in
source order: highlights first (line 110), callouts second (line 144). -/
def renderEditor (st : ExtState) (result : SarifResult)
    (editor : TextEditor) : List DecorationAction :=
  [DecorationAction.setHighlight editor.id (renderRanges st result editor),
   DecorationAction.setCallout editor.id (renderCallouts st result editor)]

/-- The trace of `setDecorations` calls of one `update()` pass.  The two
early returns (`!resultId`, `findResult` miss) issue no calls at all. -/
def update (st : ExtState) : List DecorationAction :=
  match st.activeResultId with
  | none => []
  | some resultId =>
    match findResult st.store.logs resultId with
    | none => []
    | some result =>
      st.visibleEditors.flatMap (fun editor => renderEditor st result editor)

/-- The trace of the `observe(store.logs, ...)` handler on a splice with
the given removed entries: nothing when nothing was removed, otherwise
both decoration kinds of every visible editor are set to empty, callouts
first (lines 156–157).  The handler issues no other work — in particular
it does not invoke `update`. -/
def logsRemovedHandler (st : ExtState) (removed : List Log) :
    List DecorationAction :=
  if removed.isEmpty then []
  else
    st.visibleEditors.flatMap (fun editor =>
      [DecorationAction.setCallout editor.id [],
       DecorationAction.setHighlight editor.id []])

/-- The decoration sets currently rendered, per editor identity. -/
structure DecorState where
  highlights : Nat → List Range
  callouts : Nat → List Callout

/-- Apply one `setDecorations` call: replace that editor's decoration set
of that kind. -/
def applyAction (d : DecorState) (a : DecorationAction) : DecorState :=
  match a with
  | DecorationAction.setHighlight e ranges =>
    { d with highlights := fun x => if x = e then ranges else d.highlights x }
  | DecorationAction.setCallout e callouts =>
    { d with callouts := fun x => if x = e then callouts else d.callouts x }

/-- Apply a trace of `setDecorations` calls in order. -/
def applyActions (d : DecorState) (as : List DecorationAction) : DecorState :=
  as.foldl applyAction d

/-! ## Concrete fixtures used by witnesses and counterexamples -/

/-- A selection event carrying a resolvable result with the given id:
`context.only` unset, one `ResultDiagnostic` holding the result. -/
def selectionEventFor (resultId : String) : CodeActionContext :=
  ⟨false, [⟨some ⟨resultId, none⟩⟩]⟩

/-- A selection event carrying no diagnostics at all (clicking elsewhere). -/
def selectionEventAbsent : CodeActionContext :=
  ⟨false, []⟩

/-- The number of tab characters among the first `n` characters of a
line — "each tab character on that line up to the given position". -/
def tabsUpTo (s : String) (n : Nat) : Nat :=
  (s.data.take n).count '\t'

end SarifDecor

namespace SarifDecor

/-- C2: in every state of the active-selection machine, a selection event
that carries no resolvable result leaves the pinned result id unchanged
(so it never resets a pinned id to unset), and after selecting id `42`
followed by such an event the active id is still `42`. -/
theorem selection_without_result_is_ignored (s s0 : Option String)
    (ctx : CodeActionContext) (h : contextResult ctx = none) :
    provideCodeActionsStep s ctx = s ∧
    provideCodeActionsStep
      (provideCodeActionsStep s0 (selectionEventFor "42")) ctx = some "42" := by
  have hstep : ∀ t : Option String, provideCodeActionsStep t ctx = t := by
    intro t
    unfold provideCodeActionsStep
    by_cases honly : ctx.only
    · simp [honly]
    · simp only [honly, if_false]
      cases hd : ctx.diagnostics.head? with
      | none => rfl
      | some diagnostic =>
        have hres : diagnostic.result = none := by
          unfold contextResult at h
          rw [hd] at h
          simpa using h
        simp [hres]
  have hset : provideCodeActionsStep s0 (selectionEventFor "42") = some "42" := rfl
  exact ⟨hstep s, by rw [hset]; exact hstep (some "42")⟩

/-- Witness for C2 at a concrete state and a concrete empty-selection
event. -/
theorem selection_without_result_is_ignored_witness :
    contextResult selectionEventAbsent = none ∧
    (provideCodeActionsStep (some "7") selectionEventAbsent = some "7" ∧
     provideCodeActionsStep
       (provideCodeActionsStep none (selectionEventFor "42"))
       selectionEventAbsent = some "42") :=
  ⟨rfl, selection_without_result_is_ignored (some "7") none selectionEventAbsent rfl⟩

/-- A location whose artifact is `file:///a.txt`. -/
def tflElsewhere : ThreadFlowLocation :=
  ⟨some "file:///a.txt", none, none⟩

/-- A rebaser under which every local URI resolves to `file:///b.txt`. -/
def translateToB : String → Option String :=
  fun _ => some "file:///b.txt"

/-- An editor document whose artifact is `file:///b.txt` under
`translateToB`. -/
def docB : TextDocument :=
  ⟨"local:///w/b.txt", ["contents"]⟩

/-- C1: the source's `locationsInDoc` filter keeps every location of the
result no matter what its artifact resolves to, because the `async`
filter callback returns a `Promise`, which is always truthy.  At the
concrete input — one location whose artifact is `file:///a.txt` in an
editor whose document's artifact is `file:///b.txt` — the code keeps the
location, while the filter the spec describes excludes it; in general
the code's filter is the identity on the location list. -/
theorem async_filter_keeps_every_location :
    locationsInDoc translateToB docB [tflElsewhere] = [tflElsewhere] ∧
    locationsInDocSpecified translateToB docB [tflElsewhere] = [] ∧
    ∀ (translate : String → Option String) (doc : TextDocument)
      (locations : List ThreadFlowLocation),
      locationsInDoc translate doc locations = locations := by
  refine ⟨rfl, rfl, ?_⟩
  intro translate doc locations
  unfold locationsInDoc
  simp [JsPromise.truthy]

/-- A third distinct location, used by the numbering witness. -/
def tflStep3 : ThreadFlowLocation :=
  ⟨some "file:///c.txt", none, some "third stop"⟩

/-- A result that is still in the store but is not the pinned one. -/
def resultOther : SarifResult := ⟨"other", none⟩

/-- A state whose pinned id `gone` no longer resolves to any result in
the store, with one visible editor. -/
def stDangling : ExtState :=
  ⟨some "gone", ⟨[⟨[resultOther]⟩], none⟩, [⟨0, docB, 4⟩],
   fun _ => none, fun _ _ => none⟩

/-- A highlight range rendered by an earlier pass. -/
def rangePrior : Range := ⟨⟨0, 0⟩, ⟨0, 3⟩⟩

/-- Decoration state left behind by an earlier pass: editor `0` still
shows one highlight. -/
def decorPrior : DecorState := ⟨fun _ => [rangePrior], fun _ => []⟩

/-- C3 (counterexample): an update pass whose pinned id no longer
resolves does NOT clear the rendered annotations — at this concrete
state the pass leaves editor `0`'s previously rendered highlight in
place, refuting the claim that such a pass clears all rendered
annotations. -/
theorem dangling_pass_does_not_clear :
    stDangling.activeResultId = some "gone" ∧
    findResult stDangling.store.logs "gone" = none ∧
    (applyActions decorPrior (update stDangling)).highlights 0 = [rangePrior] ∧
    [rangePrior] ≠ ([] : List Range) := by
  refine ⟨rfl, by decide, rfl, by decide⟩

/-- C3 (amended): an update pass whose pinned id no longer resolves
issues no `setDecorations` call at all — it renders nothing new and
leaves every previously rendered annotation exactly as it was — and it
completes without error with the pinned id still holding the stale
value.  (The clearing the spec describes is performed by the separate
log-removal handler, not by the update pass.) -/
theorem dangling_pass_is_silent_noop (st : ExtState) (resultId : String)
    (d : DecorState) (h1 : st.activeResultId = some resultId)
    (h2 : findResult st.store.logs resultId = none) :
    update st = [] ∧ applyActions d (update st) = d ∧
    st.activeResultId = some resultId := by
  have hu : update st = [] := by
    unfold update
    rw [h1]
    simp only [h2]
  exact ⟨hu, by rw [hu]; rfl, h1⟩

/-- Witness for C3's amended theorem at the concrete dangling state. -/
theorem dangling_pass_is_silent_noop_witness :
    stDangling.activeResultId = some "gone" ∧
    findResult stDangling.store.logs "gone" = none ∧
    (update stDangling = [] ∧
     applyActions decorPrior (update stDangling) = decorPrior ∧
     stDangling.activeResultId = some "gone") :=
  ⟨rfl, by decide,
   dangling_pass_is_silent_noop stDangling "gone" decorPrior rfl (by decide)⟩

/-- A thread-flow location of the pinned result, with a region on line 0. -/
def tflPinned : ThreadFlowLocation :=
  ⟨some "file:///b.txt", some ⟨⟨0, 0⟩, ⟨0, 3⟩⟩, some "hazard"⟩

/-- The pinned result `r1`, holding one code-flow location. -/
def resultPinned : SarifResult :=
  ⟨"r1", some [⟨some [⟨[tflPinned]⟩]⟩]⟩

/-- The log that stays in the store and holds the pinned result. -/
def logKept : Log := ⟨[resultPinned]⟩

/-- The unrelated log that gets removed from the store. -/
def logRemoved : Log := ⟨[resultOther]⟩

/-- The document of the visible editor in the removal scenario. -/
def docPinned : TextDocument := ⟨"local:///w/b.txt", ["abcdef"]⟩

/-- The visible editor in the removal scenario. -/
def editorPinned : TextEditor := ⟨0, docPinned, 4⟩

/-- The state right after `logRemoved` was spliced out: the pinned id
`r1` still resolves into the kept log. -/
def stAfterRemoval : ExtState :=
  ⟨some "r1", ⟨[logKept], none⟩, [editorPinned],
   fun _ => some "file:///b.txt", fun _ _ => none⟩

/-- Decoration state rendered before the removal: editor `0` shows the
pinned result's highlight. -/
def decorBefore : DecorState :=
  ⟨fun _ => [⟨⟨0, 0⟩, ⟨0, 3⟩⟩], fun _ => []⟩

/-- C4: when a log is removed, the `observe(store.logs, ...)` handler
only empties both decoration sets of every visible editor and never
invokes `update`, even though the pinned result still resolves — at this
concrete state the pinned id `r1` still resolves after the removal and a
recomputation would render its (nonempty) highlight range, yet the
handler's whole trace is the two clearing calls, leaving editor `0` with
no decorations. -/
theorem log_removal_clears_but_never_recomputes :
    findResult stAfterRemoval.store.logs "r1" = some resultPinned ∧
    stAfterRemoval.activeResultId = some "r1" ∧
    logsRemovedHandler stAfterRemoval [logRemoved] =
      [DecorationAction.setCallout 0 [], DecorationAction.setHighlight 0 []] ∧
    (applyActions decorBefore
      (logsRemovedHandler stAfterRemoval [logRemoved])).highlights 0 = [] ∧
    (applyActions decorBefore
      (logsRemovedHandler stAfterRemoval [logRemoved])).callouts 0 = [] ∧
    renderRanges stAfterRemoval resultPinned editorPinned =
      [⟨⟨0, 0⟩, ⟨0, 3⟩⟩] ∧
    [(⟨⟨0, 0⟩, ⟨0, 3⟩⟩ : Range)] ≠ ([] : List Range) := by
  refine ⟨by decide, rfl, by decide, rfl, rfl, by decide, by decide⟩

/-- C6: when no baseline snapshot is available for the editor's document,
the drift projector is bypassed for every edit script — a region is used
verbatim as the current-document range — and the whole pass's highlight
ranges are exactly the locations' baseline regions taken verbatim; the
pass treats this as a normal (total) outcome, not an error. -/
theorem no_snapshot_degrades_to_identity (st : ExtState)
    (result : SarifResult) (editor : TextEditor)
    (h : getOriginalDoc st (st.store.analysisInfo.bind AnalysisInfo.commit_sha)
      editor.document = none) :
    (∀ (diffBlocks : List DiffBlock) (doc : TextDocument) (reg : Region),
      driftedRegionToSelection diffBlocks doc (some reg) none =
        regionToRange reg) ∧
    renderRanges st result editor =
      (locationsInDoc st.translateLocalToArtifact editor.document
        (threadFlowLocations result)).map
        (fun tfl =>
          match tfl.region with
          | none => default
          | some reg => regionToRange reg) := by
  constructor
  · intro diffBlocks doc reg
    rfl
  · simp only [renderRanges, h]
    rfl

/-- Witness for C6 at the concrete no-snapshot state. -/
theorem no_snapshot_degrades_to_identity_witness :
    getOriginalDoc stAfterRemoval
      (stAfterRemoval.store.analysisInfo.bind AnalysisInfo.commit_sha)
      editorPinned.document = none ∧
    ((∀ (diffBlocks : List DiffBlock) (doc : TextDocument) (reg : Region),
      driftedRegionToSelection diffBlocks doc (some reg) none =
        regionToRange reg) ∧
    renderRanges stAfterRemoval resultPinned editorPinned =
      (locationsInDoc stAfterRemoval.translateLocalToArtifact
        editorPinned.document (threadFlowLocations resultPinned)).map
        (fun tfl =>
          match tfl.region with
          | none => default
          | some reg => regionToRange reg)) :=
  ⟨rfl,
   no_snapshot_degrades_to_identity stAfterRemoval resultPinned editorPinned rfl⟩

/-- C7: for every document, anchor line and tab width, the visual
end-of-line column entering the padding calculation (`rangesEndAdj`)
equals the character column of the end-of-line anchor position plus
`(tabWidth − 1)` for each tab character on that line up to the anchor
range's end position (which sits at the end of the line, so every tab of
the line is counted). -/
theorem visual_end_column_tab_adjust (doc : TextDocument) (tabSize : Int)
    (r : Range) :
    visualEndAdj doc tabSize (lineEndRange doc r) =
      ((lineEndRange doc r).stop.character : Int) +
        (tabSize - 1) *
          (tabsUpTo (doc.lineTextAt r.stop.line)
            ((lineEndRange doc r).stop.character) : Int) := by
  unfold visualEndAdj lineEndRange tabsUpTo tabCountIn
  dsimp only
  rw [show (doc.lineTextAt r.stop.line).data.take
        (doc.lineTextAt r.stop.line).length =
      (doc.lineTextAt r.stop.line).data from List.take_length _]
  ring

/-- C8: the callout message of the location that sits at index `i` of
the pinned result's original ordered location list is labeled
`Step i+1`, wherever (index `j`) that location survives in the rendered
sublist — numbering always reflects original step order and is never
renumbered from the surviving subset.  (The `Nodup` hypothesis mirrors
JavaScript reference identity: the location objects of one result are
distinct.) -/
theorem step_numbering_reflects_original_order
    (locations sub : List ThreadFlowLocation) (hnd : locations.Nodup)
    (i : Nat) (h : i < locations.length) (j : Nat) (hj : j < sub.length)
    (hij : sub.get ⟨j, hj⟩ = locations.get ⟨i, h⟩) :
    (stepMessages locations sub).getD j "" =
      "Step " ++ toString (i + 1) ++
        (match (locations.get ⟨i, h⟩).messageText with
         | some text => if text = "" then "" else ": " ++ text
         | none => "") := by
  have hlen : j < (stepMessages locations sub).length := by
    simpa [stepMessages] using hj
  rw [List.getD_eq_getElem _ _ hlen]
  unfold stepMessages
  rw [List.getElem_map]
  have hj' : sub[j] = locations.get ⟨i, h⟩ := by
    simpa [List.get_eq_getElem] using hij
  rw [hj']
  unfold stepMessage
  rw [List.get_indexOf hnd ⟨i, h⟩]

/-- Witness for C8: three distinct locations, the rendered sublist keeps
the first and the third; the third (original index 2, sublist index 1)
is labeled `Step 3`. -/
theorem step_numbering_reflects_original_order_witness :
    ([tflElsewhere, tflPinned, tflStep3] : List ThreadFlowLocation).Nodup ∧
    (stepMessages [tflElsewhere, tflPinned, tflStep3]
      [tflElsewhere, tflStep3]).getD 1 "" =
      "Step " ++ toString (2 + 1) ++
        (match (([tflElsewhere, tflPinned, tflStep3] :
            List ThreadFlowLocation).get ⟨2, by decide⟩).messageText with
         | some text => if text = "" then "" else ": " ++ text
         | none => "") :=
  ⟨by decide,
   step_numbering_reflects_original_order
     [tflElsewhere, tflPinned, tflStep3] [tflElsewhere, tflStep3]
     (by decide) 2 (by decide) 1 (by decide) (by decide)⟩

/-- C9: in every update pass and every log-removal pass, an editor
receives a highlight `setDecorations` call exactly when it receives a
callout `setDecorations` call — the two decoration kinds are always
replaced together for an editor within one pass, never one without the
other. -/
theorem decoration_kinds_set_together (st : ExtState) (removed : List Log)
    (e : Nat) :
    ((∃ rs, DecorationAction.setHighlight e rs ∈ update st) ↔
     (∃ cs, DecorationAction.setCallout e cs ∈ update st)) ∧
    ((∃ rs, DecorationAction.setHighlight e rs ∈
        logsRemovedHandler st removed) ↔
     (∃ cs, DecorationAction.setCallout e cs ∈
        logsRemovedHandler st removed)) := by
  constructor
  · unfold update
    cases st.activeResultId with
    | none => simp
    | some rid =>
      cases hfr : findResult st.store.logs rid with
      | none => simp [hfr]
      | some result =>
        unfold renderEditor
        simp only [hfr, List.mem_flatMap, List.mem_cons, List.not_mem_nil,
          or_false]
        constructor
        · rintro ⟨rs, ed, hed, h1 | h1⟩
          · injection h1 with he _
            exact ⟨renderCallouts st result ed, ed, hed, Or.inr (by rw [he])⟩
          · exact DecorationAction.noConfusion h1
        · rintro ⟨cs, ed, hed, h1 | h1⟩
          · exact DecorationAction.noConfusion h1
          · injection h1 with he _
            exact ⟨renderRanges st result ed, ed, hed, Or.inl (by rw [he])⟩
  · unfold logsRemovedHandler
    cases removed.isEmpty with
    | true => simp
    | false =>
      simp only [Bool.false_eq_true, if_false, List.mem_flatMap,
        List.mem_cons, List.not_mem_nil, or_false]
      constructor
      · rintro ⟨rs, ed, hed, h1 | h1⟩
        · exact DecorationAction.noConfusion h1
        · injection h1 with he _
          exact ⟨[], ed, hed, Or.inl (by rw [he])⟩
      · rintro ⟨cs, ed, hed, h1 | h1⟩
        · injection h1 with he _
          exact ⟨[], ed, hed, Or.inr (by rw [he])⟩
        · exact DecorationAction.noConfusion h1

/-- The rendered padding length of a callout: the run of filler glyphs
right after the leading space of its `contentText`. -/
def paddingLengthOf (c : Callout) : Nat :=
  ((c.contentText.data.drop 1).takeWhile (fun ch => ch == filler)).length

/-- A run of `n` filler glyphs followed by a space and anything else is
measured as exactly `n` glyphs. -/
theorem takeWhile_filler_pad (n : Nat) (tail : List Char) :
    ((List.replicate n filler ++ ' ' :: tail).takeWhile
      (fun ch => ch == filler)).length = n := by
  induction n with
  | zero => rfl
  | succ k ih => simp [List.replicate_succ, List.takeWhile_cons, filler, ih]

/-- The padding measured on a built callout text is the repeat count the
source handed to `"┄".repeat`. -/
theorem paddingLengthOf_calloutContent (n : Int) (r : Range)
    (hm msg : String) :
    paddingLengthOf ⟨r, hm, calloutContent n msg⟩ = n.toNat := by
  unfold paddingLengthOf calloutContent
  simp only [String.data_append]
  simpa using takeWhile_filler_pad n.toNat msg.data

/-- Every member of an integer list is bounded by the fold of `max`
seeded at any element. -/
theorem le_foldl_max (xs : List Int) :
    ∀ b : Int, b ≤ xs.foldl max b ∧ ∀ a ∈ xs, a ≤ xs.foldl max b := by
  induction xs with
  | nil =>
    intro b
    exact ⟨le_refl b, fun a ha => absurd ha (List.not_mem_nil a)⟩
  | cons x xs ih =>
    intro b
    refine ⟨le_trans (le_max_left b x) (ih (max b x)).1, ?_⟩
    intro a ha
    rcases List.mem_cons.mp ha with rfl | ha
    · exact le_trans (le_max_right b a) (ih (max b a)).1
    · exact (ih (max b x)).2 a ha

/-- Every member of an integer list is at most `max?.getD d`. -/
theorem mem_le_max_getD (l : List Int) (a d : Int) (h : a ∈ l) :
    a ≤ l.max?.getD d := by
  cases l with
  | nil => cases h
  | cons x xs =>
    rcases List.mem_cons.mp h with rfl | hmem
    · exact (le_foldl_max xs a).1
    · exact (le_foldl_max xs x).2 a hmem

/-- Layout example document: line 0 holds 10 characters and line 1 holds
14, with no tabs. -/
def docLayout : TextDocument :=
  ⟨"local:///w/layout.txt", ["aaaaaaaaaa", "bbbbbbbbbbbbbb"]⟩

/-- Layout example ranges: one region ending on each of the two lines,
so the visual end columns are 10 and 14. -/
def rangesLayout : List Range :=
  [⟨⟨0, 0⟩, ⟨0, 4⟩⟩, ⟨⟨1, 2⟩, ⟨1, 7⟩⟩]

/-- Layout example messages. -/
def messagesLayout : List String := ["Step 1: one", "Step 2: two"]

/-- C10: in every editor pass with at least one rendered range, the
padding repeat count handed to the filler repetition for callout `i` —
the pass's maximum adjusted end column plus 2, minus that callout's
adjusted end column — is at least 2, in particular a nonnegative
integer, so constructing the callout text never fails. -/
theorem padding_repeat_count_at_least_two (doc : TextDocument)
    (tabSize : Int) (ranges : List Range) (i : Nat)
    (h : i < ranges.length) :
    2 ≤ padCount
      ((ranges.map (lineEndRange doc)).map (visualEndAdj doc tabSize)) i := by
  set adj := (ranges.map (lineEndRange doc)).map (visualEndAdj doc tabSize)
    with hadj
  have hlen : i < adj.length := by simp [hadj, h]
  have hmem : adj.getD i 0 ∈ adj := by
    rw [List.getD_eq_getElem _ _ hlen]
    exact List.getElem_mem hlen
  have hle : adj.getD i 0 ≤ adj.max?.getD 0 := mem_le_max_getD adj _ 0 hmem
  unfold padCount maxRangeEnd
  omega

/-- Witness for C10 at the two-region layout example, callout 0. -/
theorem padding_repeat_count_at_least_two_witness :
    0 < rangesLayout.length ∧
    2 ≤ padCount
      ((rangesLayout.map (lineEndRange docLayout)).map
        (visualEndAdj docLayout 4)) 0 :=
  ⟨by decide,
   padding_repeat_count_at_least_two docLayout 4 rangesLayout 0 (by decide)⟩

/-- C5: in every pass, the callout at index `i` carries exactly
`maxVisualColumn − thisRegionVisualColumn` filler glyphs, where
`maxVisualColumn` is the maximum adjusted end column over the pass's
regions plus the 2-column cushion — so every message is aligned: its
padding ends at the common visual column `maxVisualColumn`.  In the
concrete two-region example with visual end columns 10 and 14 the
padding lengths are 6 and 2 and both align at visual column 16. -/
theorem callout_padding_aligns (doc : TextDocument) (tabSize : Int)
    (ranges : List Range) (messages : List String) (i : Nat)
    (h : i < ranges.length) :
    (((paddingLengthOf
        ((decorCallouts doc tabSize ranges messages).getD i default) : Int) =
      maxRangeEnd ((ranges.map (lineEndRange doc)).map
          (visualEndAdj doc tabSize)) -
        ((ranges.map (lineEndRange doc)).map
          (visualEndAdj doc tabSize)).getD i 0) ∧
     ((ranges.map (lineEndRange doc)).map
          (visualEndAdj doc tabSize)).getD i 0 +
        (paddingLengthOf
          ((decorCallouts doc tabSize ranges messages).getD i default) : Int) =
      maxRangeEnd ((ranges.map (lineEndRange doc)).map
        (visualEndAdj doc tabSize))) ∧
    ((decorCallouts docLayout 4 rangesLayout messagesLayout).map
        paddingLengthOf = [6, 2] ∧
     (rangesLayout.map (lineEndRange docLayout)).map
        (visualEndAdj docLayout 4) = [10, 14] ∧
     maxRangeEnd ((rangesLayout.map (lineEndRange docLayout)).map
        (visualEndAdj docLayout 4)) = 16) := by
  set adj := (ranges.map (lineEndRange doc)).map (visualEndAdj doc tabSize)
    with hadj
  have hlenAdj : i < adj.length := by simp [hadj, h]
  have hlenCallouts : i < (decorCallouts doc tabSize ranges messages).length := by
    simp [decorCallouts, h]
  have hget : (decorCallouts doc tabSize ranges messages).getD i default =
      { range := (ranges.map (lineEndRange doc)).getD i default
        hoverMessage := messages.getD i ""
        contentText := calloutContent (padCount adj i) (messages.getD i "") } := by
    rw [List.getD_eq_getElem _ _ hlenCallouts]
    simp [decorCallouts, hadj, h]
  have hpadlen : paddingLengthOf
      ((decorCallouts doc tabSize ranges messages).getD i default) =
      (padCount adj i).toNat := by
    rw [hget]
    exact paddingLengthOf_calloutContent _ _ _ _
  have hmem : adj.getD i 0 ∈ adj := by
    rw [List.getD_eq_getElem _ _ hlenAdj]
    exact List.getElem_mem hlenAdj
  have hle : adj.getD i 0 ≤ adj.max?.getD 0 := mem_le_max_getD adj _ 0 hmem
  have hnonneg : 0 ≤ padCount adj i := by
    unfold padCount maxRangeEnd
    omega
  have hcast : (paddingLengthOf
      ((decorCallouts doc tabSize ranges messages).getD i default) : Int) =
      padCount adj i := by
    rw [hpadlen]
    exact Int.toNat_of_nonneg hnonneg
  refine ⟨⟨?_, ?_⟩, by decide, by decide, by decide⟩
  · rw [hcast]
    rfl
  · rw [hcast]
    unfold padCount maxRangeEnd
    omega

/-- Witness for C5 at the two-region layout example, callout 0. -/
theorem callout_padding_aligns_witness :
    0 < rangesLayout.length ∧
    ((((paddingLengthOf
        ((decorCallouts docLayout 4 rangesLayout messagesLayout).getD 0
          default) : Int) =
      maxRangeEnd ((rangesLayout.map (lineEndRange docLayout)).map
          (visualEndAdj docLayout 4)) -
        ((rangesLayout.map (lineEndRange docLayout)).map
          (visualEndAdj docLayout 4)).getD 0 0) ∧
     ((rangesLayout.map (lineEndRange docLayout)).map
          (visualEndAdj docLayout 4)).getD 0 0 +
        (paddingLengthOf
          ((decorCallouts docLayout 4 rangesLayout messagesLayout).getD 0
            default) : Int) =
      maxRangeEnd ((rangesLayout.map (lineEndRange docLayout)).map
        (visualEndAdj docLayout 4))) ∧
    ((decorCallouts docLayout 4 rangesLayout messagesLayout).map
        paddingLengthOf = [6, 2] ∧
     (rangesLayout.map (lineEndRange docLayout)).map
        (visualEndAdj docLayout 4) = [10, 14] ∧
     maxRangeEnd ((rangesLayout.map (lineEndRange docLayout)).map
        (visualEndAdj docLayout 4)) = 16)) :=
  ⟨by decide,
   callout_padding_aligns docLayout 4 rangesLayout messagesLayout 0 (by decide)⟩

end SarifDecor
